import Mathlib

/-!
# Webserv: connection multiplexer and per-connection HTTP session

Shallow embedding of `src/src/Http.cpp` and `src/src/WebServ.cpp`.

* `std::map<K, V>` is a partial function `StdMap K V` with `find`, `set`, `erase`.
* `std::vector<T>` is `List T`; `Server *` (a pointer into the read-only
  `WebServ::servers`) is the `Server` value it points to.
* System calls are oracles: their results are inputs of the functions below.
* `size_t` arithmetic is `Nat` arithmetic modulo `2 ^ 64`.
-/

namespace Webserv

/-! ## Outcomes, maps, configuration -/

/-- Ways a piece of the server can end. -/
inductive Outcome (α : Type) where
  /-- normal completion -/
  | ok (a : α)
  /-- a diagnostic on `std::cerr` followed by `exit(1)` -/
  | exit
  /-- undefined behaviour: null or out-of-range dereference -/
  | undefined
deriving DecidableEq, Repr

/-- Sequencing of outcomes. -/
def Outcome.bind {α β : Type} (o : Outcome α) (f : α → Outcome β) : Outcome β :=
  match o with
  | .ok a => f a
  | .exit => .exit
  | .undefined => .undefined

/-- A `std::map`: `find k = none` when `k` has no entry. -/
structure StdMap (κ α : Type) where
  find : κ → Option α

namespace StdMap

variable {κ α : Type}

/-- A map with no entry. -/
def empty : StdMap κ α := ⟨fun _ => none⟩

/-- The assignment `m[k] = v`. -/
def set [DecidableEq κ] (m : StdMap κ α) (k : κ) (v : α) : StdMap κ α :=
  ⟨fun x => if x = k then some v else m.find x⟩

/-- The call `m.erase(k)`. -/
def erase [DecidableEq κ] (m : StdMap κ α) (k : κ) : StdMap κ α :=
  ⟨fun x => if x = k then none else m.find x⟩

/-- The map after evaluating `m[k]`: a missing entry is default-constructed. -/
def touch [DecidableEq κ] (m : StdMap κ α) (k : κ) (dflt : α) : StdMap κ α :=
  match m.find k with
  | some _ => m
  | none => m.set k dflt

end StdMap

/-- The part of `Server` the core reads. -/
structure Server where
  listen : List (String × String)
  serverNames : List String
  clientMaxBodySize : Nat
deriving DecidableEq, Repr

/-! ## `Http::matchHost` (Http.cpp 64-75) -/

/-- The test `std::find(hosts.begin(), hosts.end(), host) != hosts.end()`. -/
def findHost (host : String) : List String → Bool
  | [] => false
  | h :: hs => if h = host then true else findHost host hs

/-- The `for` loop of `matchHost`: the first server one of whose names is `host`. -/
def matchHostLoop (host : String) : List Server → Option Server
  | [] => none
  | s :: rest => if findHost host s.serverNames then some s else matchHostLoop host rest

/-- The function `Http::matchHost`. `serversBySocket[socketFd]` default-constructs
an empty vector when the descriptor has no entry; `servers[0]` on an empty
vector is undefined. -/
def matchHost (serversBySocket : StdMap Int (List Server)) (host : String)
    (socketFd : Int) : Outcome Server :=
  let servers := (serversBySocket.find socketFd).getD []
  match matchHostLoop host servers with
  | some s => .ok s
  | none =>
    match servers with
    | [] => .undefined
    | s :: _ => .ok s

/-! ## `WebServ::parseListenParams` (WebServ.cpp 117-137) -/

/-- The function `WebServ::parseListenParams`. `Utils::Split` and
`ConfigChecker::validatePortNumber` are not part of the sources at hand and are
parameters. `tokens[0]` on an empty vector is undefined. -/
def parseListenParams (Split : String → Char → List String)
    (validatePortNumber : String → Bool) (param : String) : Outcome (String × String) :=
  let tokens := Split param ':'
  match tokens with
  | [] => .undefined
  | t0 :: rest =>
    if tokens.length = 1 ∧ ¬ validatePortNumber t0 then .ok (t0, "8080")
    else if tokens.length = 2 then
      match rest with
      | t1 :: _ => .ok (t0, t1)
      | [] => .undefined
    else .ok ("0.0.0.0", t0)

/-- Split a list of characters at every occurrence of `sep`. -/
def splitChars (sep : Char) : List Char → List (List Char)
  | [] => [[]]
  | c :: cs =>
    match splitChars sep cs with
    | [] => [[c]]
    | t :: ts => if c = sep then [] :: t :: ts else (c :: t) :: ts

/-- Modelled from the spec: `Utils::Split` is not in the sources; the spec says an
`address:port` token "is split on the separator". -/
def Split (s : String) (sep : Char) : List String :=
  (splitChars sep s.data).map String.mk

/-- Modelled from the spec: `ConfigChecker::validatePortNumber` is not in the
sources; the spec calls the accepted tokens "numeric": a non-empty run of
decimal digits. -/
def validatePortNumber (s : String) : Bool :=
  !s.data.isEmpty && s.data.all Char.isDigit

/-! ## The session: `Http` (Http.cpp 14-62) -/

/-- The peer address `struct sockaddr_in` filled in by `accept`. -/
structure client_info where
  sin_addr : Nat
  sin_port : Nat
deriving DecidableEq, Repr

/-- A value-initialised `client_info`. -/
def client_info.zero : client_info := ⟨0, 0⟩

/-- Modelled from the spec: the classes `Request` and `Response` are not in the
sources. Section 6 gives their interface: the parser consumes received chunks and
reports whether it needs more data; the generator produces, from the request,
the resolved virtual host and the peer address, the bytes of the response. -/
structure Collab (Req Res : Type) where
  /-- a default-constructed `Request` -/
  newReq : Req
  /-- a default-constructed `Response` -/
  newRes : Res
  /-- the call `_req.setStatus(code)` -/
  setStatus : Req → Nat → Req
  /-- the call `_req.host()` -/
  host : Req → String
  /-- the call `_req.readRequest(ByteSequence(buf, n), fd)`: `true` while more data is needed -/
  readRequest : Req → List Char → Int → Bool × Req
  /-- the call `_res.generateResponse(_req, server, client)` -/
  generateResponse : Res → Req → Server → client_info → Res
  /-- the call `_res.toString()` -/
  toString : Res → List Char

/-- Modelled from the spec: `statusCodes.hpp` is not in the sources; the status of
an "Internal-Server-Error response". -/
def INTERNAL_SERVER_ERROR : Nat := 500

/-- The state of an `Http` object. -/
structure Http (Req Res : Type) where
  _req : Req
  _res : Res
  _response : List Char
  _isResponseGenerated : Bool
  _bytesSent : Nat
deriving DecidableEq

/-- The constructor `Http::Http`. -/
def Http.new {Req Res : Type} (C : Collab Req Res) : Http Req Res :=
  { _req := C.newReq, _res := C.newRes, _response := [],
    _isResponseGenerated := false, _bytesSent := 0 }

/-- The three statements that materialise the response in `readRequest`:
`matchHost`, `generateResponse`, `_response = _res.toString()`. -/
def generate {Req Res : Type} (C : Collab Req Res)
    (serversBySocket : StdMap Int (List Server)) (h : Http Req Res) (req : Req)
    (socketfd : Int) (client : client_info) : Outcome (Http Req Res) :=
  (matchHost serversBySocket (C.host req) socketfd).bind fun server =>
    let res := C.generateResponse h._res req server client
    .ok { h with _req := req, _res := res, _response := C.toString res,
                 _isResponseGenerated := true }

/-- The function `Http::readRequest`. The argument `recv` is the outcome of the
call of `recv`: `none` for `-1`, otherwise the bytes received (`some []` for `0`). -/
def readRequest {Req Res : Type} (C : Collab Req Res)
    (serversBySocket : StdMap Int (List Server)) (h : Http Req Res)
    (socketfd : Int) (client : client_info) (recv : Option (List Char)) :
    Outcome (Http Req Res) :=
  match recv with
  | none =>
    generate C serversBySocket h (C.setStatus h._req INTERNAL_SERVER_ERROR) socketfd client
  | some [] => .ok h
  | some (b :: bs) =>
    let r := C.readRequest h._req (b :: bs) socketfd
    if !r.1 then generate C serversBySocket h r.2 socketfd client
    else .ok { h with _req := r.2 }

/-- The number `2 ^ 64` of values of a `size_t`. -/
def SIZE : Nat := 2 ^ 64

/-- What one call of `sendResponse` reports. -/
structure Sent (Req Res : Type) where
  /-- the value returned: `false` asks for teardown -/
  ret : Bool
  /-- the session after the call -/
  http : Http Req Res
  /-- the bytes handed to the peer by `send` in this call -/
  wire : List Char
deriving DecidableEq

/-- The number of bytes `sendResponse` asks `send` to transmit: lines 52-54. -/
def bytesToSend {Req Res : Type} (BUFSIZ : Nat) (h : Http Req Res) : Nat :=
  let n := (h._response.length + SIZE - h._bytesSent) % SIZE
  if n > BUFSIZ then BUFSIZ else n

/-- The function `Http::sendResponse`. `BUFSIZ` is the constant of `<cstdio>`;
`send` is the value returned by the call of `send`. When `_bytesSent` exceeds the
size of the response the pointer `_response.c_str() + _bytesSent` is out of range. -/
def sendResponse {Req Res : Type} (BUFSIZ : Nat) (h : Http Req Res) (send : Int) :
    Outcome (Sent Req Res) :=
  if h._isResponseGenerated then
    if h._response.length < h._bytesSent then .undefined
    else if send = -1 then .ok ⟨false, h, []⟩
    else
      let bytesSent := (((h._bytesSent : Int) + send) % (SIZE : Int)).toNat
      .ok ⟨!(bytesSent == h._response.length), { h with _bytesSent := bytesSent },
           ((h._response.drop h._bytesSent).take (bytesToSend BUFSIZ h)).take send.toNat⟩
  else .ok ⟨true, h, []⟩

/-! ## Startup: `WebServ::openSocket`, `WebServ::openSockets` (WebServ.cpp 229-311) -/

/-- Results of the system calls made at startup. -/
structure StartupSys where
  /-- the call `getaddrinfo(node, service, &hints, &result)`: the status returned and the
  `(sin_addr.s_addr, sin_port)` of `result->ai_addr`; `none` when `result` is
  left `NULL` -/
  getaddrinfo : String → String → Int × Option (Nat × Nat)
  /-- the value returned by the `n`-th call of `socket` -/
  socket : Nat → Int
  /-- the value returned by `setsockopt` on a descriptor -/
  setsockopt : Int → Int
  /-- the value returned by `fcntl` on a descriptor -/
  fcntl : Int → Int
  /-- the value returned by `bind` on a descriptor -/
  bind : Int → Int
  /-- the value returned by `listen` on a descriptor -/
  listen : Int → Int

/-- The state built by `openSockets`. -/
structure Startup where
  /-- the local `socketsOpen` of `openSockets` -/
  socketsOpen : StdMap (Nat × Nat) Int
  /-- the static `WebServ::serversBySocket` -/
  serversBySocket : StdMap Int (List Server)
  /-- how many times `socket` has been called -/
  sockets : Nat

/-- The statement `serversBySocket[socketFd].push_back(server)`. -/
def pushServer (m : StdMap Int (List Server)) (socketFd : Int) (server : Server) :
    StdMap Int (List Server) :=
  m.set socketFd ((m.find socketFd).getD [] ++ [server])

/-- The body of the loop of `openSocket`, for the listen directive `l`. -/
def openListen (sys : StartupSys) (server : Server) (st : Startup) (l : String × String) :
    Outcome Startup :=
  let r := sys.getaddrinfo l.1 l.2
  if r.1 = -1 then .exit
  else
    match r.2 with
    | none => .undefined
    | some addr =>
      match st.socketsOpen.find addr with
      | some socketFd =>
        .ok { st with serversBySocket := pushServer st.serversBySocket socketFd server }
      | none =>
        let socketFd := sys.socket st.sockets
        if socketFd = -1 then .exit
        else if sys.setsockopt socketFd = -1 then .exit
        else if sys.fcntl socketFd = -1 then .exit
        else if sys.bind socketFd = -1 then .exit
        else if sys.listen socketFd = -1 then .exit
        else
          .ok { socketsOpen := st.socketsOpen.set addr socketFd
                serversBySocket := pushServer st.serversBySocket socketFd server
                sockets := st.sockets + 1 }

/-- The loop of `openSocket` over the remaining listen directives. -/
def openSocketLoop (sys : StartupSys) (server : Server) :
    List (String × String) → Startup → Outcome Startup
  | [], st => .ok st
  | l :: ls, st => (openListen sys server st l).bind (openSocketLoop sys server ls)

/-- The function `WebServ::openSocket`. -/
def openSocket (sys : StartupSys) (st : Startup) (server : Server) : Outcome Startup :=
  openSocketLoop sys server server.listen st

/-- The loop of `openSockets` over the remaining servers. -/
def openSocketsLoop (sys : StartupSys) : List Server → Startup → Outcome Startup
  | [], st => .ok st
  | s :: ss, st => (openSocket sys st s).bind (openSocketsLoop sys ss)

/-- The function `WebServ::openSockets`, from the value of the static
`serversBySocket` before the call. -/
def openSockets (sys : StartupSys) (servers : List Server)
    (serversBySocket : StdMap Int (List Server)) : Outcome Startup :=
  openSocketsLoop sys servers ⟨StdMap.empty, serversBySocket, 0⟩

/-! ## The reactor: one poll cycle of `WebServ::run` (WebServ.cpp 343-394) -/

/-- An entry `struct pollfd` of `WebServ::pollfds`. -/
structure pollfd where
  fd : Int
  events : Nat
  revents : Nat
deriving DecidableEq, Repr

/-- The flag `POLLIN` of `<poll.h>`. -/
def POLLIN : Nat := 1

/-- The flag `POLLOUT` of `<poll.h>`. -/
def POLLOUT : Nat := 4

/-- The statics and locals of `WebServ::run`. -/
structure WebServ (Req Res : Type) where
  serversBySocket : StdMap Int (List Server)
  pollfds : List pollfd
  listenfds : List Int
  httpByFd : StdMap Int (Http Req Res)
  clientByFd : StdMap Int client_info
  /-- the descriptors passed to `close`, latest first -/
  closed : List Int

/-- Results of the system calls made while one watch-list entry is processed. -/
structure Sys where
  /-- the value returned by `accept` -/
  accept : Int
  /-- the peer address written by `accept` -/
  client : client_info
  /-- the value returned by `fcntl` -/
  fcntl : Int
  /-- the outcome of `recv`: `none` for `-1`, else the bytes received -/
  recv : Option (List Char)
  /-- the value returned by `send` -/
  send : Int

/-- Lines 350-380: the branch taken when `revents & POLLIN` is set on entry `p`. -/
def handlePollin {Req Res : Type} (C : Collab Req Res) (w : WebServ Req Res)
    (p : pollfd) (sys : Sys) : Outcome (WebServ Req Res) :=
  if p.fd ∈ w.listenfds then
    let clientFd := sys.accept
    if clientFd = -1 then .exit
    else if sys.fcntl = -1 then .exit
    else
      -- `serversBySocket[clientFd] = serversBySocket[pollfds[i].fd]`: both entries exist afterwards
      let servers := (w.serversBySocket.find p.fd).getD []
      .ok { w with
            clientByFd := w.clientByFd.set clientFd sys.client
            serversBySocket := (w.serversBySocket.touch p.fd []).set clientFd servers
            httpByFd := w.httpByFd.set clientFd (Http.new C)
            pollfds := w.pollfds ++ [⟨clientFd, POLLIN ||| POLLOUT, 0⟩] }
  else
    match w.httpByFd.find p.fd with
    | none => .undefined
    | some h =>
      let clientByFd := w.clientByFd.touch p.fd client_info.zero
      let client := (clientByFd.find p.fd).getD client_info.zero
      (readRequest C w.serversBySocket h p.fd client sys.recv).bind fun h' =>
        .ok { w with clientByFd := clientByFd, httpByFd := w.httpByFd.set p.fd h' }

/-- Lines 384-392: the branch taken when `revents & POLLOUT` is set on the entry
`p` at index `i`. The flag returned tells whether the entry was erased. -/
def handlePollout {Req Res : Type} (BUFSIZ : Nat) (w : WebServ Req Res) (i : Nat)
    (p : pollfd) (sys : Sys) : Outcome (WebServ Req Res × Bool) :=
  match w.httpByFd.find p.fd with
  | none => .undefined
  | some h =>
    (sendResponse BUFSIZ h sys.send).bind fun r =>
      if r.ret then .ok ({ w with httpByFd := w.httpByFd.set p.fd r.http }, false)
      else
        .ok ({ w with
               httpByFd := w.httpByFd.erase p.fd
               serversBySocket := w.serversBySocket.erase p.fd
               closed := p.fd :: w.closed
               pollfds := w.pollfds.eraseIdx i }, true)

/-- Lines 347-393: the body of the loop for the entry at index `i`, whose
`revents` is not zero. -/
def processEntry {Req Res : Type} (C : Collab Req Res) (BUFSIZ : Nat)
    (w : WebServ Req Res) (i : Nat) (sys : Sys) : Outcome (WebServ Req Res × Bool) :=
  match w.pollfds.get? i with
  | none => .undefined
  | some p =>
    (if p.revents &&& POLLIN ≠ 0 then handlePollin C w p sys else .ok w).bind fun w1 =>
      match w1.pollfds.get? i with
      | none => .undefined
      | some q =>
        if q.revents &&& POLLOUT ≠ 0 then handlePollout BUFSIZ w1 i q sys
        else .ok (w1, false)

/-- The statement `++i` on a `size_t`. -/
def incr (i : Nat) : Nat := (i + 1) % SIZE

/-- The statement `--i` on a `size_t`. -/
def decr (i : Nat) : Nat := (i + SIZE - 1) % SIZE

/-- The `for` loop of lines 343-394 from the indices `i` and `j`, with at most
`fuel` iterations (`none` when they do not suffice). `status` is the value
returned by `poll`; `sys j` gives the results of the system calls for the `j`-th
entry processed. Returns the entries processed, in the order they were
processed, and the outcome. -/
def cycleLoop {Req Res : Type} (C : Collab Req Res) (BUFSIZ : Nat) (status : Nat)
    (sys : Nat → Sys) : Nat → Nat → Nat → WebServ Req Res →
    Option (List pollfd × Outcome (WebServ Req Res))
  | 0, _, _, _ => none
  | fuel + 1, i, j, w =>
    if i < w.pollfds.length ∧ j < status then
      match w.pollfds.get? i with
      | none => some ([], .undefined)
      | some p =>
        if p.revents = 0 then cycleLoop C BUFSIZ status sys fuel (incr i) j w
        else
          match processEntry C BUFSIZ w i (sys j) with
          | .ok (w1, erased) =>
            let i1 := if erased then decr i else i
            (cycleLoop C BUFSIZ status sys fuel (incr i1) (j + 1) w1).map
              fun r => (p :: r.1, r.2)
          | .exit => some ([p], .exit)
          | .undefined => some ([p], .undefined)
    else some ([], .ok w)

/-- One poll cycle: the `for` loop from `i = 0, j = 0`. Every iteration either
processes one of at most `status` entries or advances over an entry present at
the start, so `pollfds.size() + status + 1` iterations are enough. -/
def pollCycle {Req Res : Type} (C : Collab Req Res) (BUFSIZ : Nat)
    (w : WebServ Req Res) (status : Nat) (sys : Nat → Sys) :
    Option (List pollfd × Outcome (WebServ Req Res)) :=
  cycleLoop C BUFSIZ status sys (w.pollfds.length + status + 1) 0 0 w

/-! ## Readiness reports -/

/-- The effect of `poll` on the watch list: it writes the `revents` of every entry. -/
def poll {Req Res : Type} (w : WebServ Req Res) (revents : List Nat) : WebServ Req Res :=
  { w with pollfds := List.zipWith (fun p r => { p with revents := r }) w.pollfds revents }

/-- The entries of a watch list that `poll` reported ready. -/
def ready (pollfds : List pollfd) : List pollfd := pollfds.filter fun p => p.revents != 0

/-! ## Draining a response -/

/-- Successive calls of `sendResponse` on one session, the `k`-th call seeing
`send` return `sends[k]`: what each call reports. -/
def sendCalls {Req Res : Type} (BUFSIZ : Nat) :
    Http Req Res → List Int → Outcome (List (Sent Req Res))
  | _, [] => .ok []
  | h, r :: rs =>
    (sendResponse BUFSIZ h r).bind fun s =>
      (sendCalls BUFSIZ s.http rs).bind fun l => .ok (s :: l)

/-- The bytes handed to the peer by a run of calls, in order. -/
def wireOf {Req Res : Type} : List (Sent Req Res) → List Char
  | [] => []
  | s :: l => s.wire ++ wireOf l

/-- The number of bytes sent by the first `k` calls. -/
def sentBy (sends : List Int) (k : Nat) : Nat := ((sends.take k).map Int.toNat).sum

/-- No `send` fails and each transmits between `0` and the requested number of
bytes. -/
def sendsValid {Req Res : Type} (BUFSIZ : Nat) : Http Req Res → List Int → Bool
  | _, [] => true
  | h, r :: rs =>
    decide (0 ≤ r) && decide (r ≤ (bytesToSend BUFSIZ h : Int)) &&
      sendsValid BUFSIZ { h with _bytesSent := h._bytesSent + r.toNat } rs

/-- A session whose response `0123456789` is ready, nothing sent. -/
def readySession : Http Unit Unit :=
  { _req := (), _res := (), _response := "0123456789".data,
    _isResponseGenerated := true, _bytesSent := 0 }

/-- Whether a piece of the server completed normally in a state satisfying `p`. -/
def Outcome.holds {α : Type} (o : Outcome α) (p : α → Bool) : Bool :=
  match o with
  | .ok a => p a
  | _ => false

/-! ## What startup is expected to build -/

/-- The `(address, port)` pair a listen directive resolves to. -/
def resolve (sys : StartupSys) (l : String × String) : Nat × Nat :=
  ((sys.getaddrinfo l.1 l.2).2).getD (0, 0)

/-- Every listen directive of every server, in the order `openSockets` visits
them, each with its server and the pair it resolves to. -/
def directives (sys : StartupSys) : List Server → List (Server × (Nat × Nat))
  | [] => []
  | s :: ss => s.listen.map (fun l => (s, resolve sys l)) ++ directives sys ss

/-- The state of `openSockets` once the directives `D` have been handled. -/
structure StartupInv (sys : StartupSys) (D : List (Server × (Nat × Nat)))
    (st : Startup) : Prop where
  /-- the pairs with a socket are the pairs resolved so far -/
  pairs : ∀ pair, (st.socketsOpen.find pair).isSome ↔ pair ∈ D.map Prod.snd
  /-- every socket recorded was returned by an earlier call of `socket` -/
  made : ∀ pair fd, st.socketsOpen.find pair = some fd →
    ∃ k, k < st.sockets ∧ sys.socket k = fd
  /-- two pairs never share a socket -/
  inj : ∀ p q fd, st.socketsOpen.find p = some fd → st.socketsOpen.find q = some fd → p = q
  /-- the descriptors with a list of servers are the sockets recorded -/
  keys : ∀ fd, (st.serversBySocket.find fd).isSome ↔ ∃ pair, st.socketsOpen.find pair = some fd
  /-- a server is in the list of the socket of each pair it listens on -/
  reach : ∀ d ∈ D, ∃ fd L, st.socketsOpen.find d.2 = some fd ∧
    st.serversBySocket.find fd = some L ∧ d.1 ∈ L
  /-- one call of `socket` per distinct pair -/
  count : st.sockets = (D.map Prod.snd).toFinset.card

/-- A resolver and system calls that never fail: `127.0.0.1:8080` and `0.0.0.0:9000`
resolve to themselves, `socket` returns 3, 4, 5, ... -/
def sampleStartup : StartupSys :=
  { getaddrinfo := fun a p =>
      if a = "127.0.0.1" ∧ p = "8080" then (0, some (2130706433, 8080))
      else (0, some (0, 9000))
    socket := fun n => (n : Int) + 3
    setsockopt := fun _ => 0
    fcntl := fun _ => 0
    bind := fun _ => 0
    listen := fun _ => 0 }

/-- A third virtual host, listening on `0.0.0.0:9000` and on `127.0.0.1:8080`. -/
def hostC : Server :=
  { listen := [("0.0.0.0", "9000"), ("127.0.0.1", "8080")], serverNames := ["c.test"],
    clientMaxBodySize := 4096 }

/-! ## Sample data -/

/-- The virtual host `a.test` of the scenario of section 8. -/
def hostA : Server :=
  { listen := [("127.0.0.1", "8080")], serverNames := ["a.test"], clientMaxBodySize := 1024 }

/-- The virtual host `b.test` of the scenario of section 8. -/
def hostB : Server :=
  { listen := [("127.0.0.1", "8080")], serverNames := ["b.test"], clientMaxBodySize := 2048 }

/-- Descriptor 3 listens for `a.test` and `b.test`. -/
def sharedSocket : StdMap Int (List Server) :=
  (StdMap.empty.set 3 [hostA, hostB])

/-- A parser and a generator for the samples: every request names the host
`b.test` and is complete after its first chunk; the response shows the status
and the first name of the virtual host that serves it. -/
def sampleCollab : Collab Nat (List Char) :=
  { newReq := 200
    newRes := []
    setStatus := fun _ code => code
    host := fun _ => "b.test"
    readRequest := fun req _ _ => (false, req)
    generateResponse := fun _ req server _ =>
      (if req = INTERNAL_SERVER_ERROR then "500 ".data else "200 ".data) ++
        (server.serverNames.headD "").data
    toString := fun res => res }

/-- The address of the sample peer. -/
def peer : client_info := ⟨16777343, 40000⟩

/-- The system calls of an entry on which `accept` returns `fd`. -/
def sysAccept (fd : Int) : Sys :=
  { accept := fd, client := peer, fcntl := 0, recv := none, send := -1 }

/-- The system calls of an entry on which `recv` and `send` return as given. -/
def sysIO (recv : Option (List Char)) (send : Int) : Sys :=
  { accept := -1, client := client_info.zero, fcntl := -1, recv := recv, send := send }

/-- The reactor after startup: the socket 3 of `a.test` and `b.test` is watched. -/
def listening : WebServ Nat (List Char) :=
  { serversBySocket := sharedSocket
    pollfds := [⟨3, POLLIN ||| POLLOUT, 0⟩]
    listenfds := [3]
    httpByFd := StdMap.empty
    clientByFd := StdMap.empty
    closed := [] }

/-- The watch list of the sample cycle: connection 5 has its response sent but
for the last two bytes, 3 is the listening socket, 6 and 8 are receiving. -/
def crowded : WebServ Nat (List Char) :=
  { serversBySocket :=
      ((sharedSocket.set 5 [hostA, hostB]).set 6 [hostA, hostB]).set 8 [hostA, hostB]
    pollfds := [⟨5, 5, POLLOUT⟩, ⟨3, 5, POLLIN⟩, ⟨6, 5, 0⟩, ⟨8, 5, POLLIN⟩]
    listenfds := [3]
    httpByFd :=
      ((StdMap.empty.set 5
          { _req := 200, _res := "200 b.test".data, _response := "200 b.test".data,
            _isResponseGenerated := true, _bytesSent := 8 }).set 6
          (Http.new sampleCollab)).set 8 (Http.new sampleCollab)
    clientByFd := ((StdMap.empty.set 5 peer).set 6 peer).set 8 peer
    closed := [] }

/-- The system calls of the sample cycle: the first entry processed sends two
bytes, the second accepts descriptor 7, the third receives a request. -/
def crowdedSys (j : Nat) : Sys :=
  if j = 0 then sysIO none 2 else if j = 1 then sysAccept 7 else sysIO (some "GET /".data) 0

/-- How a piece of the server ended, without its result. -/
def Outcome.ending {α : Type} (o : Outcome α) : Outcome Unit := o.bind fun _ => .ok ()

/-- The lists of virtual hosts once connection 5 is accepted on socket 3. -/
def connTable : StdMap Int (List Server) := sharedSocket.set 5 [hostA, hostB]

/-- The session of connection 5 once its request is read: the response
`200 b.test` is ready, nothing sent. -/
def served : Http Nat (List Char) :=
  { _req := 200, _res := "200 b.test".data, _response := "200 b.test".data,
    _isResponseGenerated := true, _bytesSent := 0 }

/-- A virtual host whose listen directive names a host that does not resolve. -/
def hostD : Server :=
  { listen := [("no.such.host", "8080")], serverNames := ["d.test"], clientMaxBodySize := 0 }

/-- System calls of a startup in which `getaddrinfo` fails with `status` on
`no.such.host`, leaving `result` at `NULL`. -/
def unresolved (status : Int) : StartupSys :=
  { sampleStartup with
    getaddrinfo := fun a p =>
      if a = "no.such.host" then (status, none) else sampleStartup.getaddrinfo a p }

/-- The value `EAI_NONAME` of `<netdb.h>` (glibc). -/
def EAI_NONAME : Int := -2

/-- Two cycles of the reactor from `listening`: in the first, socket 3 is readable
and `accept` returns 5; in the second, connection 5 is readable and writable,
`recv` delivers a request and `send` returns `send`. -/
def sampleRun (send : Int) : Option (Outcome (WebServ Nat (List Char))) :=
  (pollCycle sampleCollab 8192 (poll listening [POLLIN]) 1 fun _ => sysAccept 5).bind fun r =>
    match r.2 with
    | .ok w =>
      (pollCycle sampleCollab 8192 (poll w [0, POLLIN ||| POLLOUT]) 1
        fun _ => sysIO (some "GET /".data) send).map fun r => r.2
    | .exit => some .exit
    | .undefined => some .undefined

/-! # Theorems -/

/-! ## Host resolution -/

theorem findHost_iff (host : String) (names : List String) :
    findHost host names = true ↔ host ∈ names := by
  induction names with
  | nil => simp [findHost]
  | cons n ns ih =>
    by_cases h : n = host
    · simp [findHost, h]
    · have h' : ¬ host = n := fun e => h e.symm
      simp [findHost, h, h', ih]

theorem matchHostLoop_some (host : String) (servers : List Server) (s : Server)
    (h : matchHostLoop host servers = some s) :
    ∃ pre post, servers = pre ++ s :: post ∧ host ∈ s.serverNames ∧
      ∀ t ∈ pre, host ∉ t.serverNames := by
  induction servers with
  | nil => simp [matchHostLoop] at h
  | cons a rest ih =>
    by_cases ha : findHost host a.serverNames = true
    · simp only [matchHostLoop, ha, if_true, Option.some.injEq] at h
      subst h
      exact ⟨[], rest, rfl, (findHost_iff _ _).1 ha, by simp⟩
    · simp only [matchHostLoop, ha] at h
      obtain ⟨pre, post, e, hm, hpre⟩ := ih h
      refine ⟨a :: pre, post, by simp [e], hm, ?_⟩
      intro t ht
      rcases List.mem_cons.1 ht with rfl | ht
      · exact fun hc => ha ((findHost_iff _ _).2 hc)
      · exact hpre t ht

theorem matchHostLoop_none (host : String) (servers : List Server)
    (h : matchHostLoop host servers = none) : ∀ t ∈ servers, host ∉ t.serverNames := by
  induction servers with
  | nil => simp
  | cons a rest ih =>
    by_cases ha : findHost host a.serverNames = true
    · simp [matchHostLoop, ha] at h
    · simp only [matchHostLoop, ha] at h
      intro t ht
      rcases List.mem_cons.1 ht with rfl | ht
      · exact fun hc => ha ((findHost_iff _ _).2 hc)
      · exact ih h t ht

/-- C1: on a descriptor whose list of virtual hosts is not empty, `matchHost`
returns, for every host string, the first server of the list one of whose names
equals the host, and the first server of the list when there is none. -/
theorem matchHost_first_match_or_default (serversBySocket : StdMap Int (List Server))
    (host : String) (socketFd : Int) (servers : List Server)
    (hfd : serversBySocket.find socketFd = some servers) (hne : servers ≠ []) :
    ∃ s, matchHost serversBySocket host socketFd = .ok s ∧
      ((∃ pre post, servers = pre ++ s :: post ∧ host ∈ s.serverNames ∧
          ∀ t ∈ pre, host ∉ t.serverNames) ∨
       ((∀ t ∈ servers, host ∉ t.serverNames) ∧ servers.head? = some s)) := by
  unfold matchHost
  simp only [hfd, Option.getD_some]
  cases hl : matchHostLoop host servers with
  | some s => exact ⟨s, rfl, Or.inl (matchHostLoop_some host servers s hl)⟩
  | none =>
    cases servers with
    | nil => exact absurd rfl hne
    | cons a rest => exact ⟨a, rfl, Or.inr ⟨matchHostLoop_none host _ hl, rfl⟩⟩

theorem matchHost_first_match_or_default_witness :
    sharedSocket.find 3 = some [hostA, hostB] ∧ [hostA, hostB] ≠ [] ∧
    matchHost sharedSocket "b.test" 3 = .ok hostB ∧
    matchHost sharedSocket "c.test" 3 = .ok hostA ∧
    matchHost sharedSocket "" 3 = .ok hostA ∧
    matchHost sharedSocket "B.test" 3 = .ok hostA ∧
    ∃ s, matchHost sharedSocket "b.test" 3 = .ok s ∧
      ((∃ pre post, [hostA, hostB] = pre ++ s :: post ∧ "b.test" ∈ s.serverNames ∧
          ∀ t ∈ pre, "b.test" ∉ t.serverNames) ∨
       ((∀ t ∈ [hostA, hostB], "b.test" ∉ t.serverNames) ∧
          [hostA, hostB].head? = some s)) :=
  ⟨rfl, by decide, by decide, by decide, by decide, by decide,
    matchHost_first_match_or_default sharedSocket "b.test" 3 [hostA, hostB] rfl (by decide)⟩

/-! ## Listen parameters -/

theorem splitChars_ne_nil (sep : Char) (cs : List Char) : splitChars sep cs ≠ [] := by
  cases cs with
  | nil => simp [splitChars]
  | cons c cs =>
    simp only [splitChars]
    split
    · simp
    · split <;> simp

theorem splitChars_bare (sep : Char) (cs : List Char) (h : sep ∉ cs) :
    splitChars sep cs = [cs] := by
  induction cs with
  | nil => rfl
  | cons c cs ih =>
    have hc : c ≠ sep := fun e => h (by simp [e])
    have hcs : sep ∉ cs := fun m => h (List.mem_cons_of_mem _ m)
    simp [splitChars, ih hcs, hc]

theorem splitChars_sep (sep : Char) (a p : List Char) (h : sep ∉ a) :
    splitChars sep (a ++ sep :: p) = a :: splitChars sep p := by
  induction a with
  | nil =>
    simp only [List.nil_append, splitChars]
    cases hp : splitChars sep p with
    | nil => exact absurd hp (splitChars_ne_nil sep p)
    | cons t ts => simp
  | cons c cs ih =>
    have hc : c ≠ sep := fun e => h (by simp [e])
    have hcs : sep ∉ cs := fun m => h (List.mem_cons_of_mem _ m)
    simp [splitChars, ih hcs, hc]

theorem Split_bare (t : String) (_hne : t ≠ "") (h : ':' ∉ t.data) : Split t ':' = [t] := by
  simp [Split, splitChars_bare ':' t.data h]

theorem Split_pair (a p : String) (_ha : a ≠ "") (_hp : p ≠ "") (hca : ':' ∉ a.data)
    (hcp : ':' ∉ p.data) : Split (a ++ ":" ++ p) ':' = [a, p] := by
  have e : (a ++ ":" ++ p).data = a.data ++ ':' :: p.data := by
    simp [String.data_append]
  simp [Split, e, splitChars_sep ':' a.data p.data hca, splitChars_bare ':' p.data hcp]

/-- C4: whenever `Utils::Split` splits a token on the separator (a non-empty
token without `:` is one piece, `a:p` gives the pieces `a` and `p`),
`parseListenParams` maps a bare token `p` accepted by `validatePortNumber` to
`("0.0.0.0", p)`, a bare token `a` it rejects to `(a, "8080")`, and `a:p` to
`(a, p)`; so `8081`, when accepted as a port, gives `("0.0.0.0", "8081")`. -/
theorem parseListenParams_forms (Split : String → Char → List String)
    (validatePortNumber : String → Bool)
    (hbare : ∀ t : String, t ≠ "" → ':' ∉ t.data → Split t ':' = [t])
    (hpair : ∀ a p : String, a ≠ "" → p ≠ "" → ':' ∉ a.data → ':' ∉ p.data →
      Split (a ++ ":" ++ p) ':' = [a, p]) :
    (∀ p : String, p ≠ "" → ':' ∉ p.data → validatePortNumber p = true →
      parseListenParams Split validatePortNumber p = .ok ("0.0.0.0", p)) ∧
    (∀ a : String, a ≠ "" → ':' ∉ a.data → validatePortNumber a = false →
      parseListenParams Split validatePortNumber a = .ok (a, "8080")) ∧
    (∀ a p : String, a ≠ "" → p ≠ "" → ':' ∉ a.data → ':' ∉ p.data →
      parseListenParams Split validatePortNumber (a ++ ":" ++ p) = .ok (a, p)) ∧
    (validatePortNumber "8081" = true →
      parseListenParams Split validatePortNumber "8081" = .ok ("0.0.0.0", "8081")) := by
  have numeric : ∀ p : String, p ≠ "" → ':' ∉ p.data → validatePortNumber p = true →
      parseListenParams Split validatePortNumber p = .ok ("0.0.0.0", p) := by
    intro p hne hc hv
    simp [parseListenParams, hbare p hne hc, hv]
  refine ⟨numeric, ?_, ?_, ?_⟩
  · intro a hne hc hv
    simp [parseListenParams, hbare a hne hc, hv]
  · intro a p ha hp hca hcp
    simp [parseListenParams, hpair a p ha hp hca hcp]
  · intro hv
    exact numeric "8081" (by decide) (by decide) hv

theorem parseListenParams_forms_witness :
    (∀ t : String, t ≠ "" → ':' ∉ t.data → Split t ':' = [t]) ∧
    (∀ a p : String, a ≠ "" → p ≠ "" → ':' ∉ a.data → ':' ∉ p.data →
      Split (a ++ ":" ++ p) ':' = [a, p]) ∧
    parseListenParams Split validatePortNumber "8081" = .ok ("0.0.0.0", "8081") ∧
    parseListenParams Split validatePortNumber "localhost" = .ok ("localhost", "8080") ∧
    parseListenParams Split validatePortNumber "127.0.0.1:9000" = .ok ("127.0.0.1", "9000") :=
  ⟨Split_bare, Split_pair,
    (parseListenParams_forms Split validatePortNumber Split_bare Split_pair).2.2.2 (by decide),
    (parseListenParams_forms Split validatePortNumber Split_bare Split_pair).2.1
      "localhost" (by decide) (by decide) (by decide),
    (parseListenParams_forms Split validatePortNumber Split_bare Split_pair).2.2.1
      "127.0.0.1" "9000" (by decide) (by decide) (by decide) (by decide)⟩

/-! ## Draining a response -/

theorem bytesToSend_le {Req Res : Type} (BUFSIZ : Nat) (h : Http Req Res)
    (hb : h._bytesSent ≤ h._response.length) (hn : h._response.length < SIZE) :
    bytesToSend BUFSIZ h ≤ h._response.length - h._bytesSent := by
  have e : (h._response.length + SIZE - h._bytesSent) % SIZE
      = h._response.length - h._bytesSent := by
    have : h._response.length + SIZE - h._bytesSent
        = (h._response.length - h._bytesSent) + SIZE := by omega
    rw [this, Nat.add_mod_right]
    exact Nat.mod_eq_of_lt (by omega)
  unfold bytesToSend
  simp only [e]
  split <;> omega

theorem sendResponse_ready {Req Res : Type} (BUFSIZ : Nat) (h : Http Req Res) (r : Int)
    (hready : h._isResponseGenerated = true)
    (hb : h._bytesSent ≤ h._response.length) (hn : h._response.length < SIZE)
    (h0 : 0 ≤ r) (hr : r ≤ (bytesToSend BUFSIZ h : Int)) :
    h._bytesSent + r.toNat ≤ h._response.length ∧
    sendResponse BUFSIZ h r =
      .ok ⟨!(h._bytesSent + r.toNat == h._response.length),
           { h with _bytesSent := h._bytesSent + r.toNat },
           (h._response.drop h._bytesSent).take r.toNat⟩ := by
  have hle := bytesToSend_le BUFSIZ h hb hn
  have hrn : r.toNat ≤ bytesToSend BUFSIZ h := by omega
  have hsum : h._bytesSent + r.toNat ≤ h._response.length := by omega
  refine ⟨hsum, ?_⟩
  have hne : r ≠ -1 := by omega
  have hnot : ¬ h._response.length < h._bytesSent := by omega
  have hmod : (((h._bytesSent : Int) + r) % (SIZE : Int)).toNat = h._bytesSent + r.toNat := by
    have e1 : (h._bytesSent : Int) + r = ((h._bytesSent + r.toNat : Nat) : Int) := by
      rw [Nat.cast_add, Int.toNat_of_nonneg h0]
    rw [e1, ← Int.natCast_mod, Int.toNat_natCast]
    exact Nat.mod_eq_of_lt (by omega)
  unfold sendResponse
  simp only [hready, if_true, hnot, if_false, hne, hmod]
  rw [List.take_take, Nat.min_eq_left hrn]

theorem sentBy_zero (sends : List Int) : sentBy sends 0 = 0 := by
  simp [sentBy]

theorem sentBy_succ (r : Int) (rs : List Int) (k : Nat) :
    sentBy (r :: rs) (k + 1) = r.toNat + sentBy rs k := by
  simp [sentBy]

theorem take_drop_append (l : List Char) (b a c : Nat) :
    (l.drop b).take a ++ (l.drop (b + a)).take c = (l.drop b).take (a + c) := by
  rw [List.take_add, List.drop_drop]

theorem sendCalls_spec {Req Res : Type} (BUFSIZ : Nat) (rs : List Int) :
    ∀ h : Http Req Res, h._isResponseGenerated = true →
      h._bytesSent ≤ h._response.length → h._response.length < SIZE →
      sendsValid BUFSIZ h rs = true →
      ∃ l, sendCalls BUFSIZ h rs = .ok l ∧ l.length = rs.length ∧
        ∀ k s, l.get? k = some s →
          wireOf (l.take (k + 1)) = (h._response.drop h._bytesSent).take (sentBy rs (k + 1)) ∧
          s.http._bytesSent = h._bytesSent + sentBy rs (k + 1) ∧
          (s.ret = false ↔ h._bytesSent + sentBy rs (k + 1) = h._response.length) := by
  induction rs with
  | nil =>
    intro h _ _ _ _
    exact ⟨[], rfl, rfl, by intro k s hk; simp at hk⟩
  | cons r rs ih =>
    intro h hready hb hn hv
    simp only [sendsValid, Bool.and_eq_true, decide_eq_true_eq] at hv
    obtain ⟨⟨h0, hr⟩, hrest⟩ := hv
    obtain ⟨hsum, hsend⟩ := sendResponse_ready BUFSIZ h r hready hb hn h0 hr
    obtain ⟨l, hl, hlen, hspec⟩ :=
      ih { h with _bytesSent := h._bytesSent + r.toNat } hready hsum hn hrest
    refine ⟨⟨!(h._bytesSent + r.toNat == h._response.length),
           { h with _bytesSent := h._bytesSent + r.toNat },
           (h._response.drop h._bytesSent).take r.toNat⟩ :: l, ?_, by simp [hlen], ?_⟩
    · simp only [sendCalls, hsend, Outcome.bind, hl]
    · intro k s hk
      cases k with
      | zero =>
        simp only [List.get?_cons_zero, Option.some.injEq] at hk
        subst hk
        simp [wireOf, sentBy]
      | succ k =>
        simp only [List.get?_cons_succ] at hk
        obtain ⟨hw, hbs, hret⟩ := hspec k s hk
        simp only at hw hbs hret
        refine ⟨?_, ?_, ?_⟩
        · simp only [List.take_succ_cons, wireOf, hw, sentBy_succ]
          exact take_drop_append _ _ _ _
        · rw [hbs, sentBy_succ]; omega
        · rw [hret, sentBy_succ]; omega

/-- C3: for a session whose response is ready and nothing of it sent, and calls
of `sendResponse` in which no `send` fails and each transmits between `0` and the
requested number of bytes: every call completes; the bytes transmitted by the
first `k + 1` calls, concatenated, are the first bytes of the response, as many
as were sent; a call returns `false` exactly when the count of bytes sent after
it equals the length of the response, and then the bytes transmitted are the
whole response. A session with no response ready returns `true` and sends
nothing. -/
theorem sendResponse_sends_response_once {Req Res : Type} (BUFSIZ : Nat)
    (h : Http Req Res) (sends : List Int)
    (hready : h._isResponseGenerated = true) (hzero : h._bytesSent = 0)
    (hn : h._response.length < SIZE) (hv : sendsValid BUFSIZ h sends = true) :
    (∃ l, sendCalls BUFSIZ h sends = .ok l ∧ l.length = sends.length ∧
      ∀ k s, l.get? k = some s →
        wireOf (l.take (k + 1)) = h._response.take (sentBy sends (k + 1)) ∧
        s.http._bytesSent = sentBy sends (k + 1) ∧
        (s.ret = false ↔ sentBy sends (k + 1) = h._response.length) ∧
        (s.ret = false → wireOf (l.take (k + 1)) = h._response)) ∧
    (∀ (g : Http Req Res) (r : Int), g._isResponseGenerated = false →
      sendResponse BUFSIZ g r = .ok ⟨true, g, []⟩) := by
  constructor
  · obtain ⟨l, hl, hlen, hspec⟩ :=
      sendCalls_spec BUFSIZ sends h hready (by omega) hn hv
    refine ⟨l, hl, hlen, ?_⟩
    intro k s hk
    obtain ⟨hw, hbs, hret⟩ := hspec k s hk
    rw [hzero] at hw hbs hret
    simp only [List.drop_zero, Nat.zero_add] at hw hbs hret
    refine ⟨hw, hbs, hret, ?_⟩
    intro hf
    rw [hw, hret.1 hf, List.take_length]
  · intro g r hg
    simp [sendResponse, hg]

theorem sendResponse_sends_response_once_witness :
    readySession._isResponseGenerated = true ∧ readySession._bytesSent = 0 ∧
    readySession._response.length < SIZE ∧
    sendsValid 4 readySession [4, 0, 3, 3] = true ∧
    sendCalls 4 readySession [4, 0, 3, 3] =
      .ok [⟨true, { readySession with _bytesSent := 4 }, "0123".data⟩,
           ⟨true, { readySession with _bytesSent := 4 }, []⟩,
           ⟨true, { readySession with _bytesSent := 7 }, "456".data⟩,
           ⟨false, { readySession with _bytesSent := 10 }, "789".data⟩] ∧
    ((∃ l, sendCalls 4 readySession [4, 0, 3, 3] = .ok l ∧ l.length = [4, 0, 3, (3 : Int)].length ∧
      ∀ k s, l.get? k = some s →
        wireOf (l.take (k + 1)) = readySession._response.take (sentBy [4, 0, 3, 3] (k + 1)) ∧
        s.http._bytesSent = sentBy [4, 0, 3, 3] (k + 1) ∧
        (s.ret = false ↔ sentBy [4, 0, 3, 3] (k + 1) = readySession._response.length) ∧
        (s.ret = false → wireOf (l.take (k + 1)) = readySession._response)) ∧
    (∀ (g : Http Unit Unit) (r : Int), g._isResponseGenerated = false →
      sendResponse 4 g r = .ok ⟨true, g, []⟩)) :=
  ⟨rfl, rfl, by decide, by decide, by decide,
    sendResponse_sends_response_once 4 readySession [4, 0, 3, 3] rfl rfl (by decide)
      (by decide)⟩

/-! ## Startup -/

@[simp] theorem StdMap.find_empty {κ α : Type} (x : κ) :
    (StdMap.empty : StdMap κ α).find x = none := rfl

@[simp] theorem StdMap.find_set {κ α : Type} [DecidableEq κ] (m : StdMap κ α) (k x : κ)
    (v : α) : (m.set k v).find x = if x = k then some v else m.find x := rfl

@[simp] theorem StdMap.find_erase {κ α : Type} [DecidableEq κ] (m : StdMap κ α) (k x : κ) :
    (m.erase k).find x = if x = k then none else m.find x := rfl

theorem pushServer_find (m : StdMap Int (List Server)) (fd x : Int) (s : Server) :
    (pushServer m fd s).find x =
      if x = fd then some ((m.find fd).getD [] ++ [s]) else m.find x := rfl

theorem StartupInv.init (sys : StartupSys) :
    StartupInv sys [] ⟨StdMap.empty, StdMap.empty, 0⟩ where
  pairs := by simp
  made := by simp
  inj := by simp
  keys := by simp
  reach := by simp
  count := by simp

theorem openListen_step (sys : StartupSys) (server : Server) (l : String × String)
    (D : List (Server × (Nat × Nat))) (st : Startup) (inv : StartupInv sys D st)
    (hstatus : (sys.getaddrinfo l.1 l.2).1 = 0)
    (hresult : (sys.getaddrinfo l.1 l.2).2.isSome = true)
    (hfresh : Function.Injective sys.socket)
    (hsocket : ∀ n, sys.socket n ≠ -1) (hsetsockopt : ∀ fd, sys.setsockopt fd ≠ -1)
    (hfcntl : ∀ fd, sys.fcntl fd ≠ -1) (hbind : ∀ fd, sys.bind fd ≠ -1)
    (hlisten : ∀ fd, sys.listen fd ≠ -1) :
    ∃ st', openListen sys server st l = .ok st' ∧
      StartupInv sys (D ++ [(server, resolve sys l)]) st' := by
  obtain ⟨addr, haddr⟩ := Option.isSome_iff_exists.1 hresult
  have hres : resolve sys l = addr := by simp [resolve, haddr]
  have hne : ¬ (sys.getaddrinfo l.1 l.2).1 = -1 := by rw [hstatus]; decide
  cases hso : st.socketsOpen.find addr with
  | some fd =>
    refine ⟨{ st with serversBySocket := pushServer st.serversBySocket fd server }, ?_, ?_⟩
    · simp [openListen, hne, haddr, hso]
    · have hmem : addr ∈ D.map Prod.snd := (inv.pairs addr).1 (by simp [hso])
      rw [hres]
      refine ⟨?_, inv.made, inv.inj, ?_, ?_, ?_⟩
      · intro pair
        rw [inv.pairs pair]
        simp only [List.map_append, List.map_cons, List.map_nil, List.mem_append,
          List.mem_singleton]
        constructor
        · exact Or.inl
        · rintro (h | h)
          · exact h
          · exact h ▸ hmem
      · intro x
        show ((pushServer st.serversBySocket fd server).find x).isSome ↔ _
        rw [pushServer_find]
        by_cases hx : x = fd
        · subst hx
          simp only [if_true, Option.isSome_some, true_iff]
          exact ⟨addr, hso⟩
        · simp only [hx, if_false]
          exact inv.keys x
      · intro d hd
        rcases List.mem_append.1 hd with hd | hd
        · obtain ⟨fd', L, h1, h2, h3⟩ := inv.reach d hd
          by_cases hx : fd' = fd
          · subst hx
            refine ⟨fd', L ++ [server], h1, ?_, List.mem_append_left _ h3⟩
            show (pushServer st.serversBySocket fd' server).find fd' = _
            simp [pushServer_find, h2]
          · refine ⟨fd', L, h1, ?_, h3⟩
            show (pushServer st.serversBySocket fd server).find fd' = _
            simp [pushServer_find, hx, h2]
        · rw [List.mem_singleton] at hd
          subst hd
          refine ⟨fd, (st.serversBySocket.find fd).getD [] ++ [server], hso, ?_, by simp⟩
          show (pushServer st.serversBySocket fd server).find fd = _
          simp [pushServer_find]
      · show st.sockets = _
        rw [inv.count]
        congr 1
        ext x
        simp only [List.mem_toFinset, List.map_append, List.map_cons, List.map_nil,
          List.mem_append, List.mem_singleton]
        constructor
        · exact Or.inl
        · rintro (h | h)
          · exact h
          · exact h ▸ hmem
  | none =>
    have hnot : addr ∉ D.map Prod.snd := by
      intro hm
      have := (inv.pairs addr).2 hm
      simp [hso] at this
    have hnew : ∀ pair, st.socketsOpen.find pair ≠ some (sys.socket st.sockets) := by
      intro pair hp
      obtain ⟨k, hk, hk'⟩ := inv.made pair _ hp
      have := hfresh hk'
      omega
    have hnokey : st.serversBySocket.find (sys.socket st.sockets) = none := by
      cases hk : st.serversBySocket.find (sys.socket st.sockets) with
      | none => rfl
      | some L =>
        obtain ⟨pair, hp⟩ := (inv.keys (sys.socket st.sockets)).1 (by rw [hk]; rfl)
        exact absurd hp (hnew pair)
    refine ⟨{ socketsOpen := st.socketsOpen.set addr (sys.socket st.sockets)
              serversBySocket := pushServer st.serversBySocket (sys.socket st.sockets) server
              sockets := st.sockets + 1 }, ?_, ?_⟩
    · simp [openListen, hne, haddr, hso, hsocket, hsetsockopt, hfcntl, hbind, hlisten]
    · rw [hres]
      refine ⟨?_, ?_, ?_, ?_, ?_, ?_⟩
      · intro pair
        simp only [StdMap.find_set, List.map_append, List.map_cons, List.map_nil,
          List.mem_append, List.mem_singleton]
        by_cases hp : pair = addr
        · simp [hp]
        · simp only [hp, if_false, or_false]
          exact inv.pairs pair
      · intro pair fd hf
        simp only [StdMap.find_set] at hf
        by_cases hp : pair = addr
        · simp only [hp, if_true, Option.some.injEq] at hf
          exact ⟨st.sockets, Nat.lt_succ_self _, hf⟩
        · simp only [hp, if_false] at hf
          obtain ⟨k, hk, hk'⟩ := inv.made pair fd hf
          exact ⟨k, Nat.lt_succ_of_lt hk, hk'⟩
      · intro p q fd hp hq
        simp only [StdMap.find_set] at hp hq
        by_cases h1 : p = addr <;> by_cases h2 : q = addr
        · rw [h1, h2]
        · simp only [h1, if_true, Option.some.injEq, h2, if_false] at hp hq
          exact absurd (hp ▸ hq) (hnew q)
        · simp only [h1, if_false, h2, if_true, Option.some.injEq] at hp hq
          exact absurd (hq ▸ hp) (hnew p)
        · simp only [h1, h2, if_false] at hp hq
          exact inv.inj p q fd hp hq
      · intro x
        show ((pushServer st.serversBySocket (sys.socket st.sockets) server).find x).isSome ↔
          ∃ pair, (st.socketsOpen.set addr (sys.socket st.sockets)).find pair = some x
        rw [pushServer_find]
        by_cases hx : x = sys.socket st.sockets
        · subst hx
          simp only [if_true, Option.isSome_some, true_iff]
          exact ⟨addr, by simp⟩
        · simp only [hx, if_false, StdMap.find_set]
          rw [inv.keys x]
          constructor
          · rintro ⟨pair, hp⟩
            refine ⟨pair, ?_⟩
            have : pair ≠ addr := fun e => by rw [e, hso] at hp; cases hp
            simp [this, hp]
          · rintro ⟨pair, hp⟩
            by_cases hpa : pair = addr
            · simp only [hpa, if_true, Option.some.injEq] at hp
              exact absurd hp.symm hx
            · simp only [hpa, if_false] at hp
              exact ⟨pair, hp⟩
      · intro d hd
        rcases List.mem_append.1 hd with hd | hd
        · obtain ⟨fd', L, h1, h2, h3⟩ := inv.reach d hd
          have hd2 : d.2 ≠ addr := fun e => by rw [e, hso] at h1; cases h1
          have hfd : fd' ≠ sys.socket st.sockets := fun e => hnew d.2 (e ▸ h1)
          refine ⟨fd', L, ?_, ?_, h3⟩
          · simp [hd2, h1]
          · show (pushServer st.serversBySocket (sys.socket st.sockets) server).find fd' = _
            simp [pushServer_find, hfd, h2]
        · rw [List.mem_singleton] at hd
          subst hd
          refine ⟨sys.socket st.sockets, [server], by simp, ?_, by simp⟩
          show (pushServer st.serversBySocket (sys.socket st.sockets) server).find _ = _
          simp [pushServer_find, hnokey]
      · show st.sockets + 1 = _
        rw [inv.count, List.map_append, List.toFinset_append]
        simp only [List.map_cons, List.map_nil, List.toFinset_cons, List.toFinset_nil,
          insert_emptyc_eq]
        rw [Finset.union_comm, ← Finset.insert_eq, Finset.card_insert_of_not_mem]
        simpa using hnot

theorem openSocketLoop_inv (sys : StartupSys) (server : Server)
    (hfresh : Function.Injective sys.socket)
    (hsocket : ∀ n, sys.socket n ≠ -1) (hsetsockopt : ∀ fd, sys.setsockopt fd ≠ -1)
    (hfcntl : ∀ fd, sys.fcntl fd ≠ -1) (hbind : ∀ fd, sys.bind fd ≠ -1)
    (hlisten : ∀ fd, sys.listen fd ≠ -1) (ls : List (String × String)) :
    ∀ (D : List (Server × (Nat × Nat))) (st : Startup), StartupInv sys D st →
      (∀ l ∈ ls, (sys.getaddrinfo l.1 l.2).1 = 0 ∧ (sys.getaddrinfo l.1 l.2).2.isSome = true) →
      ∃ st', openSocketLoop sys server ls st = .ok st' ∧
        StartupInv sys (D ++ ls.map (fun l => (server, resolve sys l))) st' := by
  induction ls with
  | nil =>
    intro D st inv _
    exact ⟨st, rfl, by simpa using inv⟩
  | cons l ls ih =>
    intro D st inv hres
    obtain ⟨h1, h2⟩ := hres l (List.mem_cons_self _ _)
    obtain ⟨st1, e1, inv1⟩ := openListen_step sys server l D st inv h1 h2 hfresh hsocket
      hsetsockopt hfcntl hbind hlisten
    obtain ⟨st2, e2, inv2⟩ := ih _ st1 inv1 (fun x hx => hres x (List.mem_cons_of_mem _ hx))
    refine ⟨st2, ?_, ?_⟩
    · simp only [openSocketLoop, e1, Outcome.bind, e2]
    · simpa [List.append_assoc] using inv2

theorem openSocketsLoop_inv (sys : StartupSys)
    (hfresh : Function.Injective sys.socket)
    (hsocket : ∀ n, sys.socket n ≠ -1) (hsetsockopt : ∀ fd, sys.setsockopt fd ≠ -1)
    (hfcntl : ∀ fd, sys.fcntl fd ≠ -1) (hbind : ∀ fd, sys.bind fd ≠ -1)
    (hlisten : ∀ fd, sys.listen fd ≠ -1) (servers : List Server) :
    ∀ (D : List (Server × (Nat × Nat))) (st : Startup), StartupInv sys D st →
      (∀ s ∈ servers, ∀ l ∈ s.listen,
        (sys.getaddrinfo l.1 l.2).1 = 0 ∧ (sys.getaddrinfo l.1 l.2).2.isSome = true) →
      ∃ st', openSocketsLoop sys servers st = .ok st' ∧
        StartupInv sys (D ++ directives sys servers) st' := by
  induction servers with
  | nil =>
    intro D st inv _
    exact ⟨st, rfl, by simpa [directives] using inv⟩
  | cons s ss ih =>
    intro D st inv hres
    obtain ⟨st1, e1, inv1⟩ := openSocketLoop_inv sys s hfresh hsocket hsetsockopt hfcntl
      hbind hlisten s.listen D st inv (hres s (List.mem_cons_self _ _))
    obtain ⟨st2, e2, inv2⟩ := ih _ st1 inv1 (fun x hx => hres x (List.mem_cons_of_mem _ hx))
    refine ⟨st2, ?_, ?_⟩
    · simp only [openSocketsLoop, openSocket, e1, Outcome.bind, e2]
    · simpa [directives, List.append_assoc] using inv2

theorem mem_directives (sys : StartupSys) (servers : List Server) (d : Server × (Nat × Nat)) :
    d ∈ directives sys servers ↔ ∃ s ∈ servers, ∃ l ∈ s.listen, d = (s, resolve sys l) := by
  induction servers with
  | nil => simp [directives]
  | cons s ss ih =>
    simp only [directives, List.mem_append, List.mem_map, ih, List.mem_cons]
    constructor
    · rintro (⟨l, hl, rfl⟩ | ⟨t, ht, l, hl, rfl⟩)
      · exact ⟨s, Or.inl rfl, l, hl, rfl⟩
      · exact ⟨t, Or.inr ht, l, hl, rfl⟩
    · rintro ⟨t, rfl | ht, l, hl, rfl⟩
      · exact Or.inl ⟨l, hl, rfl⟩
      · exact Or.inr ⟨t, ht, l, hl, rfl⟩

/-- C2: when address resolution succeeds for every listen directive, every call
of `socket` returns a descriptor never returned before, and no setup call fails,
`openSockets` completes and: a pair has a socket exactly when some listen
directive resolves to it; two pairs never share a socket; the descriptors with a
list in `serversBySocket` are exactly these sockets; the list of a pair's socket
contains every virtual host with a directive resolving to the pair; and `socket`
was called once per distinct pair. -/
theorem openSockets_one_socket_per_pair (sys : StartupSys) (servers : List Server)
    (hresolve : ∀ s ∈ servers, ∀ l ∈ s.listen,
      (sys.getaddrinfo l.1 l.2).1 = 0 ∧ (sys.getaddrinfo l.1 l.2).2.isSome = true)
    (hfresh : Function.Injective sys.socket)
    (hsocket : ∀ n, sys.socket n ≠ -1) (hsetsockopt : ∀ fd, sys.setsockopt fd ≠ -1)
    (hfcntl : ∀ fd, sys.fcntl fd ≠ -1) (hbind : ∀ fd, sys.bind fd ≠ -1)
    (hlisten : ∀ fd, sys.listen fd ≠ -1) :
    ∃ st, openSockets sys servers StdMap.empty = .ok st ∧
      (∀ pair, (st.socketsOpen.find pair).isSome ↔
        ∃ s ∈ servers, ∃ l ∈ s.listen, resolve sys l = pair) ∧
      (∀ p q fd, st.socketsOpen.find p = some fd → st.socketsOpen.find q = some fd → p = q) ∧
      (∀ fd, (st.serversBySocket.find fd).isSome ↔
        ∃ pair, st.socketsOpen.find pair = some fd) ∧
      (∀ s ∈ servers, ∀ l ∈ s.listen, ∃ fd L,
        st.socketsOpen.find (resolve sys l) = some fd ∧
        st.serversBySocket.find fd = some L ∧ s ∈ L) ∧
      st.sockets = ((directives sys servers).map Prod.snd).toFinset.card := by
  obtain ⟨st, e, inv⟩ := openSocketsLoop_inv sys hfresh hsocket hsetsockopt hfcntl hbind
    hlisten servers [] _ (StartupInv.init sys) hresolve
  rw [List.nil_append] at inv
  refine ⟨st, e, ?_, inv.inj, inv.keys, ?_, inv.count⟩
  · intro pair
    rw [inv.pairs pair, List.mem_map]
    constructor
    · rintro ⟨d, hd, rfl⟩
      obtain ⟨s, hs, l, hl, rfl⟩ := (mem_directives sys servers d).1 hd
      exact ⟨s, hs, l, hl, rfl⟩
    · rintro ⟨s, hs, l, hl, rfl⟩
      exact ⟨(s, resolve sys l), (mem_directives sys servers _).2 ⟨s, hs, l, hl, rfl⟩, rfl⟩
  · intro s hs l hl
    exact inv.reach (s, resolve sys l) ((mem_directives sys servers _).2 ⟨s, hs, l, hl, rfl⟩)

theorem sampleStartup_resolves (a p : String) :
    (sampleStartup.getaddrinfo a p).1 = 0 ∧ (sampleStartup.getaddrinfo a p).2.isSome = true := by
  simp only [sampleStartup]
  split <;> exact ⟨rfl, rfl⟩

theorem sampleStartup_fresh : Function.Injective sampleStartup.socket := by
  intro a b h
  simpa [sampleStartup] using h

theorem sampleStartup_socket (n : Nat) : sampleStartup.socket n ≠ -1 := by
  simp only [sampleStartup]
  omega

theorem openSockets_one_socket_per_pair_witness :
    (openSockets sampleStartup [hostA, hostB, hostC] StdMap.empty).holds (fun st =>
      st.sockets == 2 &&
      st.socketsOpen.find (2130706433, 8080) == some 3 &&
      st.socketsOpen.find (0, 9000) == some 4 &&
      st.serversBySocket.find 3 == some [hostA, hostB, hostC] &&
      st.serversBySocket.find 4 == some [hostC] &&
      st.serversBySocket.find 5 == none) = true ∧
    ∃ st, openSockets sampleStartup [hostA, hostB, hostC] StdMap.empty = .ok st ∧
      (∀ pair, (st.socketsOpen.find pair).isSome ↔
        ∃ s ∈ [hostA, hostB, hostC], ∃ l ∈ s.listen, resolve sampleStartup l = pair) ∧
      (∀ p q fd, st.socketsOpen.find p = some fd → st.socketsOpen.find q = some fd → p = q) ∧
      (∀ fd, (st.serversBySocket.find fd).isSome ↔
        ∃ pair, st.socketsOpen.find pair = some fd) ∧
      (∀ s ∈ [hostA, hostB, hostC], ∀ l ∈ s.listen, ∃ fd L,
        st.socketsOpen.find (resolve sampleStartup l) = some fd ∧
        st.serversBySocket.find fd = some L ∧ s ∈ L) ∧
      st.sockets =
        ((directives sampleStartup [hostA, hostB, hostC]).map Prod.snd).toFinset.card :=
  ⟨by decide,
    openSockets_one_socket_per_pair sampleStartup [hostA, hostB, hostC]
      (fun _ _ l _ => sampleStartup_resolves l.1 l.2) sampleStartup_fresh
      sampleStartup_socket (fun _ => show (0 : Int) ≠ -1 by decide)
      (fun _ => show (0 : Int) ≠ -1 by decide) (fun _ => show (0 : Int) ≠ -1 by decide)
      (fun _ => show (0 : Int) ≠ -1 by decide)⟩

/-! ## One poll cycle -/

theorem Outcome.bind_eq_ok {α β : Type} (o : Outcome α) (f : α → Outcome β) (b : β)
    (h : o.bind f = .ok b) : ∃ a, o = .ok a ∧ f a = .ok b := by
  cases o with
  | ok a => exact ⟨a, rfl, h⟩
  | exit => simp [Outcome.bind] at h
  | undefined => simp [Outcome.bind] at h

theorem handlePollin_accept {Req Res : Type} (C : Collab Req Res) (w : WebServ Req Res)
    (p : pollfd) (sys : Sys) (hl : p.fd ∈ w.listenfds) (ha : sys.accept ≠ -1)
    (hf : sys.fcntl ≠ -1) :
    handlePollin C w p sys =
      .ok { w with
            clientByFd := w.clientByFd.set sys.accept sys.client
            serversBySocket := (w.serversBySocket.touch p.fd []).set sys.accept
              ((w.serversBySocket.find p.fd).getD [])
            httpByFd := w.httpByFd.set sys.accept (Http.new C)
            pollfds := w.pollfds ++ [⟨sys.accept, POLLIN ||| POLLOUT, 0⟩] } := by
  simp [handlePollin, hl, ha, hf]

theorem handlePollin_pollfds {Req Res : Type} (C : Collab Req Res) (w w1 : WebServ Req Res)
    (p : pollfd) (sys : Sys) (h : handlePollin C w p sys = .ok w1) :
    ∃ app, (∀ a ∈ app, a.revents = 0) ∧ app.length ≤ 1 ∧ w1.pollfds = w.pollfds ++ app := by
  by_cases hl : p.fd ∈ w.listenfds
  · by_cases ha : sys.accept = -1
    · simp [handlePollin, hl, ha] at h
    · by_cases hf : sys.fcntl = -1
      · simp [handlePollin, hl, ha, hf] at h
      · rw [handlePollin_accept C w p sys hl ha hf] at h
        simp only [Outcome.ok.injEq] at h
        subst h
        exact ⟨[⟨sys.accept, POLLIN ||| POLLOUT, 0⟩], by simp, by simp, rfl⟩
  · simp only [handlePollin, hl, if_false] at h
    split at h
    · cases h
    · obtain ⟨h', _, e⟩ := Outcome.bind_eq_ok _ _ _ h
      simp only [Outcome.ok.injEq] at e
      subst e
      exact ⟨[], by simp, by simp, by simp⟩

theorem handlePollout_pollfds {Req Res : Type} (BUFSIZ : Nat) (w w1 : WebServ Req Res)
    (i : Nat) (p : pollfd) (sys : Sys) (erased : Bool)
    (h : handlePollout BUFSIZ w i p sys = .ok (w1, erased)) :
    w1.pollfds = if erased then w.pollfds.eraseIdx i else w.pollfds := by
  unfold handlePollout at h
  split at h
  · cases h
  · obtain ⟨r, _, e⟩ := Outcome.bind_eq_ok _ _ _ h
    split at e
    · simp only [Outcome.ok.injEq, Prod.mk.injEq] at e
      obtain ⟨e1, e2⟩ := e
      subst e1 e2
      simp
    · simp only [Outcome.ok.injEq, Prod.mk.injEq] at e
      obtain ⟨e1, e2⟩ := e
      subst e1 e2
      simp

theorem processEntry_pollfds {Req Res : Type} (C : Collab Req Res) (BUFSIZ : Nat)
    (w w1 : WebServ Req Res) (i : Nat) (sys : Sys) (erased : Bool)
    (hi : i < w.pollfds.length)
    (h : processEntry C BUFSIZ w i sys = .ok (w1, erased)) :
    ∃ app, (∀ a ∈ app, a.revents = 0) ∧ app.length ≤ 1 ∧
      w1.pollfds = (if erased then w.pollfds.eraseIdx i else w.pollfds) ++ app := by
  unfold processEntry at h
  split at h
  · cases h
  · rename_i p hp
    obtain ⟨w0, hin, hout⟩ := Outcome.bind_eq_ok _ _ _ h
    have hw0 : ∃ app, (∀ a ∈ app, a.revents = 0) ∧ app.length ≤ 1 ∧
        w0.pollfds = w.pollfds ++ app := by
      split at hin
      · exact handlePollin_pollfds C w w0 p sys hin
      · simp only [Outcome.ok.injEq] at hin
        subst hin
        exact ⟨[], by simp, by simp, by simp⟩
    obtain ⟨app, happ, hlen, e0⟩ := hw0
    refine ⟨app, happ, hlen, ?_⟩
    split at hout
    · cases hout
    · split at hout
      · rw [handlePollout_pollfds BUFSIZ w0 w1 i _ sys erased hout, e0]
        cases erased
        · simp
        · simp only [if_true]
          exact List.eraseIdx_append_of_lt_length hi app
      · simp only [Outcome.ok.injEq, Prod.mk.injEq] at hout
        obtain ⟨e1, e2⟩ := hout
        subst e1 e2
        simpa using e0

theorem incr_of_lt (i : Nat) (h : i + 1 < SIZE) : incr i = i + 1 :=
  Nat.mod_eq_of_lt h

theorem incr_decr (i : Nat) (h : i < SIZE) : incr (decr i) = i := by
  unfold incr decr
  have hS : 0 < SIZE := by unfold SIZE; positivity
  rcases Nat.eq_zero_or_pos i with h0 | hpos
  · subst h0
    have e : (0 + SIZE - 1) % SIZE = SIZE - 1 := by
      rw [Nat.zero_add]
      exact Nat.mod_eq_of_lt (by omega)
    rw [e]
    have : SIZE - 1 + 1 = SIZE := by omega
    rw [this, Nat.mod_self]
  · have e : (i + SIZE - 1) % SIZE = i - 1 := by
      have : i + SIZE - 1 = (i - 1) + SIZE := by omega
      rw [this, Nat.add_mod_right]
      exact Nat.mod_eq_of_lt (by omega)
    rw [e]
    have : i - 1 + 1 = i := by omega
    rw [this]
    exact Nat.mod_eq_of_lt h

theorem eraseIdx_middle (pre mid : List pollfd) (p : pollfd) :
    (pre ++ p :: mid).eraseIdx pre.length = pre ++ mid := by
  induction pre with
  | nil => rfl
  | cons a pre ih => simp [List.eraseIdx, ih]

theorem get?_middle (pre mid : List pollfd) (p : pollfd) :
    (pre ++ p :: mid).get? pre.length = some p := by
  induction pre with
  | nil => rfl
  | cons a pre ih => simpa using ih

theorem cycleLoop_stop {Req Res : Type} (C : Collab Req Res) (BUFSIZ status : Nat)
    (sys : Nat → Sys) (f i j : Nat) (w : WebServ Req Res)
    (h : ¬ (i < w.pollfds.length ∧ j < status)) :
    cycleLoop C BUFSIZ status sys (f + 1) i j w = some ([], .ok w) := by
  rw [cycleLoop, if_neg h]

theorem cycleLoop_skip {Req Res : Type} (C : Collab Req Res) (BUFSIZ status : Nat)
    (sys : Nat → Sys) (f i j : Nat) (w : WebServ Req Res) (p : pollfd)
    (hlen : i < w.pollfds.length) (hj : j < status) (hget : w.pollfds.get? i = some p)
    (hp : p.revents = 0) :
    cycleLoop C BUFSIZ status sys (f + 1) i j w
      = cycleLoop C BUFSIZ status sys f (incr i) j w := by
  rw [cycleLoop, if_pos ⟨hlen, hj⟩]
  simp only [hget, hp, if_true]

theorem cycleLoop_process {Req Res : Type} (C : Collab Req Res) (BUFSIZ status : Nat)
    (sys : Nat → Sys) (f i j : Nat) (w : WebServ Req Res) (p : pollfd)
    (hlen : i < w.pollfds.length) (hj : j < status) (hget : w.pollfds.get? i = some p)
    (hp : ¬ p.revents = 0) :
    cycleLoop C BUFSIZ status sys (f + 1) i j w =
      match processEntry C BUFSIZ w i (sys j) with
      | .ok (w1, erased) =>
        (cycleLoop C BUFSIZ status sys f (incr (if erased then decr i else i)) (j + 1) w1).map
          fun r => (p :: r.1, r.2)
      | .exit => some ([p], .exit)
      | .undefined => some ([p], .undefined) := by
  rw [cycleLoop, if_pos ⟨hlen, hj⟩]
  simp only [hget, hp, if_false]

theorem ready_nil_of_length {l : List pollfd} (h : (ready l).length = 0) : ready l = [] :=
  List.length_eq_zero.1 h

theorem cycleLoop_trace {Req Res : Type} (C : Collab Req Res) (BUFSIZ : Nat) (status : Nat)
    (sys : Nat → Sys) (mid : List pollfd) :
    ∀ (fuel i j : Nat) (w : WebServ Req Res) (pre app : List pollfd),
      w.pollfds = pre ++ mid ++ app → pre.length = i → (∀ a ∈ app, a.revents = 0) →
      (ready mid).length + j = status → w.pollfds.length + (status - j) < SIZE →
      mid.length < fuel →
      ∃ tr out, cycleLoop C BUFSIZ status sys fuel i j w = some (tr, out) ∧
        (∃ rest, tr ++ rest = ready mid) ∧ (∀ w', out = .ok w' → tr = ready mid) := by
  induction mid with
  | nil =>
    intro fuel i j w pre app _ _ _ hcount _ hfuel
    cases fuel with
    | zero => simp at hfuel
    | succ f =>
      have hj : ¬ j < status := by
        simp only [ready, List.filter_nil, List.length_nil, Nat.zero_add] at hcount
        omega
      exact ⟨[], .ok w, cycleLoop_stop C BUFSIZ status sys f i j w (fun h => hj h.2),
        ⟨[], rfl⟩, fun _ _ => rfl⟩
  | cons p mid ih =>
    intro fuel i j w pre app hw hi happ hcount hsize hfuel
    cases fuel with
    | zero => simp at hfuel
    | succ f =>
      have hf : mid.length < f := by simpa using hfuel
      have hw' : w.pollfds = pre ++ p :: (mid ++ app) := by simp [hw]
      have hlen : i < w.pollfds.length := by
        rw [hw', ← hi, List.length_append, List.length_cons]
        omega
      have hget : w.pollfds.get? i = some p := by
        rw [hw', ← hi]
        exact get?_middle pre (mid ++ app) p
      by_cases hp : p.revents = 0
      · have hready : ready (p :: mid) = ready mid := by simp [ready, hp]
        rw [hready] at hcount ⊢
        by_cases hj : j < status
        · rw [cycleLoop_skip C BUFSIZ status sys f i j w p hlen hj hget hp,
            incr_of_lt i (by omega)]
          exact ih f (i + 1) j w (pre ++ [p]) app (by simp [hw]) (by simp [hi]) happ hcount
            hsize hf
        · have hnil : ready mid = [] := ready_nil_of_length (by omega)
          rw [hnil]
          exact ⟨[], .ok w, cycleLoop_stop C BUFSIZ status sys f i j w (fun h => hj h.2),
            ⟨[], rfl⟩, fun _ _ => rfl⟩
      · have hready : ready (p :: mid) = p :: ready mid := by simp [ready, hp]
        rw [hready] at hcount ⊢
        have hj : j < status := by
          simp only [List.length_cons] at hcount
          omega
        rw [cycleLoop_process C BUFSIZ status sys f i j w p hlen hj hget hp]
        cases hproc : processEntry C BUFSIZ w i (sys j) with
        | exit => exact ⟨[p], .exit, rfl, ⟨ready mid, rfl⟩, fun _ h => by cases h⟩
        | undefined => exact ⟨[p], .undefined, rfl, ⟨ready mid, rfl⟩, fun _ h => by cases h⟩
        | ok r =>
          obtain ⟨w1, erased⟩ := r
          obtain ⟨app1, happ1, hlen1, hw1⟩ :=
            processEntry_pollfds C BUFSIZ w w1 i (sys j) erased hlen hproc
          have happ' : ∀ a ∈ app ++ app1, a.revents = 0 := by
            intro a ha
            rcases List.mem_append.1 ha with ha | ha
            · exact happ a ha
            · exact happ1 a ha
          have hcount' : (ready mid).length + (j + 1) = status := by
            simp only [List.length_cons] at hcount
            omega
          cases erased with
          | true =>
            have hpoll : w1.pollfds = pre ++ mid ++ (app ++ app1) := by
              rw [hw1]
              simp only [if_true]
              rw [hw', ← hi, eraseIdx_middle]
              simp
            have hsize' : w1.pollfds.length + (status - (j + 1)) < SIZE := by
              have e1 : w1.pollfds.length = pre.length + mid.length + (app.length + app1.length) := by
                rw [hpoll]; simp only [List.length_append, List.length_cons, List.length_nil]
              have e2 : w.pollfds.length = pre.length + (mid.length + 1) + app.length := by
                rw [hw]; simp only [List.length_append, List.length_cons, List.length_nil]
              omega
            obtain ⟨tr, out, hrec, ⟨rest, hrest⟩, hall⟩ :=
              ih f i (j + 1) w1 pre (app ++ app1) hpoll hi happ' hcount' hsize' hf
            refine ⟨p :: tr, out, ?_, ⟨rest, by simp [hrest]⟩, fun w' h => by rw [hall w' h]⟩
            simp only [if_true, incr_decr i (by omega), hrec, Option.map_some']
          | false =>
            have hpoll : w1.pollfds = (pre ++ [p]) ++ mid ++ (app ++ app1) := by
              rw [hw1]
              simp [hw]
            have hsize' : w1.pollfds.length + (status - (j + 1)) < SIZE := by
              have e1 : w1.pollfds.length
                  = pre.length + 1 + mid.length + (app.length + app1.length) := by
                rw [hpoll]; simp only [List.length_append, List.length_cons, List.length_nil]
              have e2 : w.pollfds.length = pre.length + (mid.length + 1) + app.length := by
                rw [hw]; simp only [List.length_append, List.length_cons, List.length_nil]
              omega
            obtain ⟨tr, out, hrec, ⟨rest, hrest⟩, hall⟩ :=
              ih f (i + 1) (j + 1) w1 (pre ++ [p]) (app ++ app1) hpoll (by simp [hi]) happ'
                hcount' hsize' hf
            refine ⟨p :: tr, out, ?_, ⟨rest, by simp [hrest]⟩, fun w' h => by rw [hall w' h]⟩
            simp only [Bool.false_eq_true, if_false, incr_of_lt i (by omega), hrec,
              Option.map_some']

/-- C9: when `poll` returns the number of entries whose `revents` is not zero
(in a watch list of fewer than `2 ^ 63` entries), the loop of one cycle ends, the
entries it processed are, in watch-list order, the first of the entries that
were ready at the start of the cycle, each once, and when the cycle completes
they are all of them: no ready entry is skipped or processed twice, whatever
entries are erased (with `--i`, also at `i = 0`) or appended on the way. -/
theorem pollCycle_processes_ready_once {Req Res : Type} (C : Collab Req Res)
    (BUFSIZ : Nat) (w : WebServ Req Res) (status : Nat) (sys : Nat → Sys)
    (hstatus : status = (ready w.pollfds).length) (hsize : w.pollfds.length < 2 ^ 63) :
    ∃ tr out, pollCycle C BUFSIZ w status sys = some (tr, out) ∧
      (∃ rest, tr ++ rest = ready w.pollfds) ∧
      (∀ w', out = .ok w' → tr = ready w.pollfds) := by
  have hle : (ready w.pollfds).length ≤ w.pollfds.length := List.length_filter_le _ _
  have hS : SIZE = 2 ^ 63 + 2 ^ 63 := by unfold SIZE; norm_num
  exact cycleLoop_trace C BUFSIZ status sys w.pollfds (w.pollfds.length + status + 1) 0 0 w
    [] [] (by simp) rfl (by simp) (by omega) (by omega) (by omega)

theorem pollCycle_processes_ready_once_witness :
    3 = (ready crowded.pollfds).length ∧ crowded.pollfds.length < 2 ^ 63 ∧
    (pollCycle sampleCollab 8192 crowded 3 crowdedSys).map (fun r =>
        (r.1, r.2.holds fun w =>
          w.pollfds == [⟨3, 5, POLLIN⟩, ⟨6, 5, 0⟩, ⟨8, 5, POLLIN⟩, ⟨7, 5, 0⟩] &&
          w.closed == [5]))
      = some ([⟨5, 5, POLLOUT⟩, ⟨3, 5, POLLIN⟩, ⟨8, 5, POLLIN⟩], true) ∧
    ∃ tr out, pollCycle sampleCollab 8192 crowded 3 crowdedSys = some (tr, out) ∧
      (∃ rest, tr ++ rest = ready crowded.pollfds) ∧
      (∀ w', out = .ok w' → tr = ready crowded.pollfds) :=
  ⟨by decide, by decide, by decide,
    pollCycle_processes_ready_once sampleCollab 8192 crowded 3 crowdedSys (by decide)
      (by decide)⟩

/-! ## Accept -/

/-- C10: when `accept` and `fcntl` succeed on a listening socket, the branch for
`POLLIN` registers under the new descriptor the list of virtual hosts of the
listening socket, in the same order, appends to the watch list an entry for the
new descriptor with `POLLIN | POLLOUT`, and `matchHost` gives for every host the
same result on the new descriptor as on the listening socket. -/
theorem accept_registers_listening_list {Req Res : Type} (C : Collab Req Res)
    (w : WebServ Req Res) (p : pollfd) (sys : Sys) (hl : p.fd ∈ w.listenfds)
    (ha : sys.accept ≠ -1) (hf : sys.fcntl ≠ -1) :
    ∃ w1, handlePollin C w p sys = .ok w1 ∧
      (∀ L, w.serversBySocket.find p.fd = some L →
        w1.serversBySocket.find p.fd = some L ∧ w1.serversBySocket.find sys.accept = some L) ∧
      w1.serversBySocket.find sys.accept = w1.serversBySocket.find p.fd ∧
      w1.pollfds = w.pollfds ++ [⟨sys.accept, POLLIN ||| POLLOUT, 0⟩] ∧
      (∀ host, matchHost w1.serversBySocket host sys.accept
        = matchHost w1.serversBySocket host p.fd) := by
  refine ⟨_, handlePollin_accept C w p sys hl ha hf, ?_, ?_, rfl, ?_⟩
  · intro L hL
    simp only [StdMap.find_set, hL, Option.getD_some, StdMap.touch, if_true]
    constructor
    · split <;> simp [hL]
    · trivial
  · simp only [StdMap.find_set, if_true]
    by_cases e : p.fd = sys.accept
    · simp [e]
    · simp only [e, if_false, StdMap.touch]
      cases hfd : w.serversBySocket.find p.fd with
      | none => simp
      | some L => simp [hfd]
  · intro host
    have key : ((w.serversBySocket.touch p.fd []).set sys.accept
          ((w.serversBySocket.find p.fd).getD [])).find sys.accept
        = ((w.serversBySocket.touch p.fd []).set sys.accept
          ((w.serversBySocket.find p.fd).getD [])).find p.fd := by
      simp only [StdMap.find_set, if_true]
      by_cases e : p.fd = sys.accept
      · simp [e]
      · simp only [e, if_false, StdMap.touch]
        cases hfd : w.serversBySocket.find p.fd with
        | none => simp
        | some L => simp [hfd]
    simp only [matchHost, key]

theorem accept_registers_listening_list_witness :
    (3 : Int) ∈ listening.listenfds ∧ (sysAccept 5).accept ≠ -1 ∧ (sysAccept 5).fcntl ≠ -1 ∧
    (handlePollin sampleCollab listening ⟨3, 5, POLLIN⟩ (sysAccept 5)).holds (fun w =>
      w.serversBySocket.find 5 == some [hostA, hostB] &&
      w.pollfds == [⟨3, 5, 0⟩, ⟨5, 5, 0⟩] &&
      matchHost w.serversBySocket "b.test" 5 == .ok hostB &&
      matchHost w.serversBySocket "b.test" 3 == .ok hostB) = true ∧
    ∃ w1, handlePollin sampleCollab listening ⟨3, 5, POLLIN⟩ (sysAccept 5) = .ok w1 ∧
      (∀ L, listening.serversBySocket.find 3 = some L →
        w1.serversBySocket.find 3 = some L ∧ w1.serversBySocket.find 5 = some L) ∧
      w1.serversBySocket.find 5 = w1.serversBySocket.find 3 ∧
      w1.pollfds = listening.pollfds ++ [⟨5, POLLIN ||| POLLOUT, 0⟩] ∧
      (∀ host, matchHost w1.serversBySocket host 5 = matchHost w1.serversBySocket host 3) :=
  ⟨by decide, by decide, by decide, by decide,
    accept_registers_listening_list sampleCollab listening ⟨3, 5, POLLIN⟩ (sysAccept 5)
      (by decide) (by decide) (by decide)⟩

/-! ## What handling one connection leaves alone -/

theorem handlePollout_frame {Req Res : Type} (BUFSIZ : Nat) (w w1 : WebServ Req Res)
    (i : Nat) (p : pollfd) (sys : Sys) (erased : Bool)
    (h : handlePollout BUFSIZ w i p sys = .ok (w1, erased)) :
    w1.clientByFd = w.clientByFd ∧ w1.listenfds = w.listenfds ∧
    (∀ fd, fd ≠ p.fd → w1.httpByFd.find fd = w.httpByFd.find fd ∧
      w1.serversBySocket.find fd = w.serversBySocket.find fd) ∧
    (erased = true → w1.httpByFd.find p.fd = none ∧ w1.serversBySocket.find p.fd = none ∧
      w1.closed = p.fd :: w.closed ∧ w1.pollfds = w.pollfds.eraseIdx i) := by
  unfold handlePollout at h
  split at h
  · cases h
  · obtain ⟨r, _, e⟩ := Outcome.bind_eq_ok _ _ _ h
    split at e
    · simp only [Outcome.ok.injEq, Prod.mk.injEq] at e
      obtain ⟨e1, e2⟩ := e
      subst e1 e2
      refine ⟨rfl, rfl, ?_, by simp⟩
      intro fd hfd
      simp [hfd]
    · simp only [Outcome.ok.injEq, Prod.mk.injEq] at e
      obtain ⟨e1, e2⟩ := e
      subst e1 e2
      refine ⟨rfl, rfl, ?_, fun _ => by simp⟩
      intro fd hfd
      simp [hfd]

theorem handlePollout_send_error {Req Res : Type} (BUFSIZ : Nat) (w : WebServ Req Res)
    (i : Nat) (p : pollfd) (sys : Sys) (h : Http Req Res)
    (hfind : w.httpByFd.find p.fd = some h) (hready : h._isResponseGenerated = true)
    (hsent : h._bytesSent ≤ h._response.length) (hsend : sys.send = -1) :
    handlePollout BUFSIZ w i p sys =
      .ok ({ w with
             httpByFd := w.httpByFd.erase p.fd
             serversBySocket := w.serversBySocket.erase p.fd
             closed := p.fd :: w.closed
             pollfds := w.pollfds.eraseIdx i }, true) := by
  have hnot : ¬ h._response.length < h._bytesSent := by omega
  simp [handlePollout, hfind, sendResponse, hready, hnot, hsend, Outcome.bind]

theorem handlePollin_read_frame {Req Res : Type} (C : Collab Req Res) (w w1 : WebServ Req Res)
    (p : pollfd) (sys : Sys) (hl : p.fd ∉ w.listenfds)
    (h : handlePollin C w p sys = .ok w1) :
    w1.pollfds = w.pollfds ∧ w1.serversBySocket = w.serversBySocket ∧
    w1.listenfds = w.listenfds ∧ w1.closed = w.closed ∧
    (∀ fd, fd ≠ p.fd → w1.httpByFd.find fd = w.httpByFd.find fd ∧
      w1.clientByFd.find fd = w.clientByFd.find fd) := by
  simp only [handlePollin, hl, if_false] at h
  split at h
  · cases h
  · obtain ⟨h', _, e⟩ := Outcome.bind_eq_ok _ _ _ h
    simp only [Outcome.ok.injEq] at e
    subst e
    refine ⟨rfl, rfl, rfl, rfl, ?_⟩
    intro fd hfd
    refine ⟨by simp [hfd], ?_⟩
    simp only [StdMap.touch]
    split
    · rfl
    · simp [hfd]

/-! ## Behaviour that departs from the specification -/

/-- C5, evaluated: connection 5 is accepted on socket 3, its request is read and
its response sent in full. After the teardown the watch list, `httpByFd` and
`serversBySocket` have no entry for 5, and `clientByFd` still has one. -/
theorem teardown_keeps_clientByFd_entry :
    (sampleRun 10).map (fun o => o.holds fun w =>
      w.pollfds.map (fun p => p.fd) == [3] && w.closed == [5] &&
      (w.httpByFd.find 5).isNone && (w.serversBySocket.find 5).isNone &&
      w.clientByFd.find 5 == some peer) = some true := by
  decide

/-- C8, evaluated: connection 5 is accepted on socket 3, its request is read and
`send` fails. The teardown of the same step removes the entries of 5 from the
watch list, `httpByFd` and `serversBySocket`, leaves socket 3 as it was, and
leaves the entry of 5 in `clientByFd`. -/
theorem send_error_keeps_clientByFd_entry :
    (sampleRun (-1)).map (fun o => o.holds fun w =>
      w.pollfds == [⟨3, 5, 0⟩] && w.closed == [5] &&
      w.serversBySocket.find 3 == some [hostA, hostB] &&
      (w.httpByFd.find 5).isNone && (w.serversBySocket.find 5).isNone &&
      w.clientByFd.find 5 == some peer) = some true := by
  decide

/-- C6, evaluated: the first chunk read on connection 5 makes the response
`200 b.test` ready with nothing sent; four bytes are sent; then `recv` fails and
`readRequest` replaces the response by `500 b.test`, the count of bytes sent
staying at four. A read of zero bytes changes nothing. -/
theorem readRequest_replaces_ready_response :
    readRequest sampleCollab connTable (Http.new sampleCollab) 5 peer (some "GET /".data)
      = .ok served ∧
    sendResponse 8192 served 4 = .ok ⟨true, { served with _bytesSent := 4 }, "200 ".data⟩ ∧
    readRequest sampleCollab connTable { served with _bytesSent := 4 } 5 peer none
      = .ok { _req := 500, _res := "500 b.test".data, _response := "500 b.test".data,
              _isResponseGenerated := true, _bytesSent := 4 } ∧
    readRequest sampleCollab connTable { served with _bytesSent := 4 } 5 peer (some [])
      = .ok { served with _bytesSent := 4 } := by
  decide

/-- C7, evaluated: when `getaddrinfo` fails with `EAI_NONAME` on the second
server, `openSockets` does not exit: the test `status == -1` lets the failure
through and `result`, still `NULL`, is dereferenced. Only the status `-1`
reaches `exit(1)`. -/
theorem openSockets_misses_resolution_failure :
    (openSockets (unresolved EAI_NONAME) [hostA, hostD] StdMap.empty).ending = .undefined ∧
    (openSockets (unresolved (-1)) [hostA, hostD] StdMap.empty).ending = .exit := by
  decide

end Webserv
